import Mathlib

/-!
Verification development for the putioarr download pipeline.

The definitions below are shallow embeddings of the Rust sources:
  - src/download_system/transfer.rs   (Target Planner, Transfer Producer)
  - src/download_system/orchestration.rs (Orchestration Worker, watchers)
  - src/services/putio.rs             (remote-service data types)
Remote calls (put.io HTTP requests), channels and timers are abstracted as
explicit parameters: a remote file tree stands for the answers of
putio::list_files, a function `urlOf` for putio::url, lists of poll results
for repeated putio::get_transfer calls, and lists of outcomes for values
received on reply channels.  Fallible Rust paths (`?`, `.unwrap()`) are
modelled with Except/Option.
-/

namespace Putioarr

/-- PutIOTransferStatus from services/putio.rs. -/
inductive PutIOTransferStatus where
  | InQueue
  | Waiting
  | PreparingDownload
  | Downloading
  | Completing
  | Seeding
  | Completed
  | Error
deriving DecidableEq, Repr

/-- TargetType from download_system/transfer.rs. -/
inductive TargetType where
  | Directory
  | File
deriving DecidableEq, Repr

/-- DownloadTarget from download_system/transfer.rs.  The Rust field `from`
and the Rust field `to`
are keywords/tokens in Lean, so they are rendered `from_` and `to_`. -/
structure DownloadTarget where
  from_ : Option String
  to_ : String
  target_type : TargetType
  top_level : Bool
  transfer_hash : String
deriving DecidableEq, Repr

/-- Transfer from download_system/transfer.rs.  The `app_data` field (a
runtime handle holding configuration and channels) is not data and is left
out; configuration reaches the embedded functions as explicit parameters. -/
structure Transfer where
  name : String
  file_id : Option Nat
  hash : Option String
  transfer_id : Nat
  targets : Option (List DownloadTarget)
deriving DecidableEq, Repr

/-- TransferMessage, the pipeline event type.  transfer.rs declares
QueuedForDownload and Downloaded; orchestration.rs additionally constructs
and matches an Imported variant, so the full event type has all three. -/
inductive TransferMessage where
  | QueuedForDownload (t : Transfer)
  | Downloaded (t : Transfer)
  | Imported (t : Transfer)
deriving DecidableEq, Repr

/-- Modelled from the spec: DownloadDoneStatus is declared in
download_system/download.rs, which is not among the provided sources; §3 of
the spec gives the Download Outcome as `Success(target) | Failed(target)`.
orchestration.rs only ever matches the two constructors, never the payload. -/
inductive DownloadDoneStatus where
  | Success (t : DownloadTarget)
  | Failed (t : DownloadTarget)
deriving DecidableEq, Repr

/-- Truth value of the match used in Worker::work: Success maps to true,
Failed maps to false (orchestration.rs lines 86-89). -/
def DownloadDoneStatus.isSuccess : DownloadDoneStatus → Bool
  | .Success _ => true
  | .Failed _ => false

/-- One node of the remote put.io file tree.  A node bundles what one
putio::list_files call returns for its id: the parent metadata (id, name,
file_type) and the children list (`response.files`). -/
inductive FileNode where
  | mk (id : Nat) (name : String) (file_type : String) (children : List FileNode)
deriving Repr

def FileNode.id : FileNode → Nat
  | .mk i _ _ _ => i

def FileNode.name : FileNode → String
  | .mk _ n _ _ => n

def FileNode.file_type : FileNode → String
  | .mk _ _ t _ => t

def FileNode.children : FileNode → List FileNode
  | .mk _ _ _ cs => cs

mutual

/-- recurse_download_targets from download_system/transfer.rs.  `skip` is
config.skip_directories, `urlOf` abstracts putio::url, `hash` is the
transfer hash.  Line 72 of the source hardcodes `base_path = "."` (the
expression reading `override_base_path` is commented out there), so the
`override_base_path` argument is received but never read; the parameter is
kept to mirror the source signature and its recursive calls.  `Path::new(
".").join(name)` is rendered as `"." ++ "/" ++ name`. -/
def recurse_download_targets (skip : List String) (urlOf : Nat → String)
    (hash : String) (node : FileNode) (override_base_path : Option String)
    (top_level : Bool) : List DownloadTarget :=
  match node with
  | .mk nid name ftype children =>
    let base_path := "."
    let to_ := base_path ++ "/" ++ name
    if ftype = "FOLDER" then
      if skip.contains name.toLower then
        []
      else
        { from_ := none, to_ := to_, target_type := TargetType.Directory,
          top_level := top_level, transfer_hash := hash } ::
          recurse_children skip urlOf hash children to_
    else if ftype = "VIDEO" then
      [{ from_ := some (urlOf nid), to_ := to_, target_type := TargetType.File,
         top_level := top_level, transfer_hash := hash }]
    else
      []

/-- The `for file in response.files` loop of recurse_download_targets:
append the recursive result for each child, passing the new base path and
`top_level = false` (transfer.rs lines 97-108). -/
def recurse_children (skip : List String) (urlOf : Nat → String)
    (hash : String) (nodes : List FileNode) (new_base_path : String) :
    List DownloadTarget :=
  match nodes with
  | [] => []
  | c :: cs =>
    recurse_download_targets skip urlOf hash c (some new_base_path) false ++
      recurse_children skip urlOf hash cs new_base_path

end

/-- Transfer::get_top_level from transfer.rs.  The source unwraps both the
`targets` Option and the result of `find`; a `none` value of this function
is therefore a panic of the source. -/
def get_top_level (t : Transfer) : Option DownloadTarget :=
  t.targets.bind (fun ts => ts.find? (fun d => d.top_level))

/-- Worker::work, QueuedForDownload arm, fan-in and emission step
(orchestration.rs lines 79-100): given the planned targets and the list of
outcomes received on the per-target reply channels (in target order), the
worker emits `Downloaded(t with targets populated)` when every outcome is a
Success, and emits nothing (warns and drops) otherwise. -/
def handle_queued_for_download (t : Transfer) (targets : List DownloadTarget)
    (all_downloaded : List DownloadDoneStatus) : List TransferMessage :=
  if all_downloaded.all (fun d =>
      match d with
      | DownloadDoneStatus.Success _ => true
      | DownloadDoneStatus.Failed _ => false) then
    [TransferMessage.Downloaded { t with targets := some targets }]
  else
    []

/-- Worker::work, QueuedForDownload arm including the planning call
(orchestration.rs line 61): the source applies `?` to
`t.get_download_targets()`, so a planning error returns Err from
Worker::work, ending that worker's receive loop; `outcomes` abstracts the
download workers' replies for the dispatched targets. -/
def work_queued_step (plan : Except String (List DownloadTarget))
    (outcomes : List DownloadTarget → List DownloadDoneStatus)
    (t : Transfer) : Except String (List TransferMessage) :=
  match plan with
  | Except.error e => Except.error e
  | Except.ok targets =>
    Except.ok (handle_queued_for_download t targets (outcomes targets))

/-- PutIOTransfer from services/putio.rs, restricted to the fields the
download pipeline reads. -/
structure PutIOTransfer where
  id : Nat
  file_id : Option Nat
  name : String
  hash : Option String
  save_parent_id : Option Nat
  status : PutIOTransferStatus
deriving DecidableEq, Repr

/-- PutIOTransfer::is_downloadable from services/putio.rs. -/
def PutIOTransfer.is_downloadable (t : PutIOTransfer) : Bool :=
  t.file_id.isSome

/-- The `for putio_transfer in &list_transfer_response.transfers` loop of
produce_transfers (transfer.rs lines 211-221): walk the snapshot, skipping
ids already seen or not downloadable, otherwise emitting the id and pushing
it onto `seen` before the next element is examined.  Returns the emitted
ids in order and the grown seen list. -/
def produce_scan (seen : List Nat) : List PutIOTransfer → List Nat × List Nat
  | [] => ([], seen)
  | t :: ts =>
    if seen.contains t.id || !t.is_downloadable then
      produce_scan seen ts
    else
      let r := produce_scan (seen ++ [t.id]) ts
      (t.id :: r.1, r.2)

/-- One steady-state iteration of produce_transfers (transfer.rs lines
207-250) as a function of the putio::list_transfers result: on Ok, scan the
snapshot, prune `seen` to the snapshot's ids and sleep one polling
interval; on Err, warn and `continue` immediately.  The result is (emitted
transfer ids, (new seen list, whether the iteration slept before the next
fetch)). -/
def produce_step (seen : List Nat) (fetch : Option (List PutIOTransfer)) :
    List Nat × List Nat × Bool :=
  match fetch with
  | some transfers =>
    let scanned := produce_scan seen transfers
    let active_ids := transfers.map (fun t => t.id)
    (scanned.1, (scanned.2.filter (fun i => active_ids.contains i), true))
  | none => ([], (seen, false))

/-- produce_transfers' loop run over a list of successful snapshots,
accumulating the emitted ids and threading the seen list. -/
def produce_run (seen : List Nat) :
    List (List PutIOTransfer) → List Nat × List Nat
  | [] => ([], seen)
  | snap :: snaps =>
    let s := produce_step seen (some snap)
    let r := produce_run s.2.1 snaps
    (s.1 ++ r.1, r.2)

/-- Result of one putio::get_transfer call inside watch_seeding's loop:
either the remote status, or a failed query. -/
inductive SeedPoll where
  | ok (s : PutIOTransferStatus)
  | err
deriving DecidableEq, Repr

/-- The remote cleanup calls watch_seeding can issue. -/
inductive RemoteCall where
  | remove_transfer
  | delete_file
deriving DecidableEq, Repr

/-- Termination mode of the modelled watch_seeding run. -/
inductive WatchResult where
  | pending
  | errored
  | ok
deriving DecidableEq, Repr

/-- watch_seeding from orchestration.rs (lines 154-184), over a trace of
get_transfer results and the outcomes of the two cleanup calls.  A failed
status query propagates through `?` (errored, nothing issued).  While the
status is Seeding the loop sleeps and polls again (`pending` when the trace
runs out).  On the first non-Seeding status: `remove_transfer` is issued; if
it fails, `?` propagates (errored, delete_file never issued); if it
succeeds, `delete_file` is issued and the watcher breaks out and returns Ok
whatever `delete_ok` is.  The third component lists the pipeline events the
watcher sends: the source holds no sender, so it is always empty. -/
def watch_seeding (remove_ok delete_ok : Bool) :
    List SeedPoll → List RemoteCall × WatchResult × List TransferMessage
  | [] => ([], (WatchResult.pending, []))
  | SeedPoll.err :: _ => ([], (WatchResult.errored, []))
  | SeedPoll.ok s :: rest =>
    if s = PutIOTransferStatus.Seeding then
      watch_seeding remove_ok delete_ok rest
    else
      if remove_ok then
        ([RemoteCall.remove_transfer, RemoteCall.delete_file],
          (WatchResult.ok, []))
      else
        ([RemoteCall.remove_transfer], (WatchResult.errored, []))

mutual

/-- Specification-side characterisation (spec §4.1, §8): the nodes of a
remote tree that are not inside a skipped folder's subtree.  A folder whose
lowercased name is in the skip list drops its entire subtree, itself
included; every other node contributes itself and its children's
contribution. -/
def unskippedNodes (skip : List String) : FileNode → List FileNode
  | .mk i n t cs =>
    if t = "FOLDER" && skip.contains n.toLower then
      []
    else
      FileNode.mk i n t cs :: unskippedList skip cs

/-- unskippedNodes over a children list. -/
def unskippedList (skip : List String) : List FileNode → List FileNode
  | [] => []
  | c :: cs => unskippedNodes skip c ++ unskippedList skip cs

end

mutual

/-- A remote file tree is well formed when only FOLDER nodes have children
(put.io only lists children for folders). -/
def wellFormed : FileNode → Bool
  | .mk _ _ t cs => (t == "FOLDER" || cs.isEmpty) && wellFormedList cs

/-- wellFormed over a children list. -/
def wellFormedList : List FileNode → Bool
  | [] => true
  | c :: cs => wellFormed c && wellFormedList cs

end

/-- Structural induction over FileNode with an inductive hypothesis for
every child. -/
def FileNode.strongInd {motive : FileNode → Prop}
    (step : ∀ i n t cs, (∀ c ∈ cs, motive c) → motive (FileNode.mk i n t cs)) :
    ∀ node, motive node
  | .mk i n t cs => step i n t cs (fun c hc => FileNode.strongInd step c)
termination_by node => sizeOf node
decreasing_by
  have := List.sizeOf_lt_of_mem hc
  simp only [FileNode.mk.sizeOf_spec]
  omega

theorem handle_queued_for_download_eq (t : Transfer)
    (targets : List DownloadTarget) (outs : List DownloadDoneStatus) :
    handle_queued_for_download t targets outs =
      (if outs.all DownloadDoneStatus.isSuccess then
        [TransferMessage.Downloaded { t with targets := some targets }]
      else []) := by
  have hfun : ∀ d : DownloadDoneStatus,
      (match d with
        | DownloadDoneStatus.Success _ => true
        | DownloadDoneStatus.Failed _ => false) = d.isSuccess := by
    intro d; cases d <;> rfl
  simp only [handle_queued_for_download, hfun]

/-- C1: the Orchestration Worker emits `Downloaded(t with targets
populated)` for a QueuedForDownload transfer exactly when every dispatched
target's reply-channel outcome is Success, and a single Failed outcome
means nothing is emitted at all for that transfer (no retry or requeue:
the returned event list is empty). -/
theorem downloaded_iff_all_success (t : Transfer) (targets : List DownloadTarget)
    (outs : List DownloadDoneStatus) :
    (handle_queued_for_download t targets outs =
        [TransferMessage.Downloaded { t with targets := some targets }] ↔
      ∀ d ∈ outs, d.isSuccess = true) ∧
    ((∃ d ∈ outs, d.isSuccess = false) →
      handle_queued_for_download t targets outs = []) := by
  rw [handle_queued_for_download_eq]
  by_cases hall : outs.all DownloadDoneStatus.isSuccess = true
  · have hforall := List.all_eq_true.mp hall
    refine ⟨⟨fun _ => hforall, fun _ => by simp [hall]⟩, ?_⟩
    rintro ⟨d, hd, hfalse⟩
    exact absurd (hforall d hd) (by simp [hfalse])
  · have hnot : ¬ ∀ d ∈ outs, d.isSuccess = true := fun h =>
      hall (List.all_eq_true.mpr h)
    refine ⟨⟨fun heq => ?_, fun h => absurd h hnot⟩, fun _ => by simp [hall]⟩
    rw [if_neg (by simpa using hall)] at heq
    exact absurd heq (by simp)

/-- Witness for C1: with a single Failed outcome the worker emits nothing. -/
theorem downloaded_iff_all_success_witness :
    handle_queued_for_download
        { name := "n", file_id := some 1, hash := some "abcd", transfer_id := 7,
          targets := none }
        []
        [DownloadDoneStatus.Failed
          { from_ := none, to_ := "./n", target_type := TargetType.Directory,
            top_level := true, transfer_hash := "abcd" }] = [] :=
  (downloaded_iff_all_success _ _ _).2 ⟨_, List.mem_singleton_self _, rfl⟩

/-- C2 (counter-evidence): for the tree with root folder "a" holding the
subfolder "b" and an empty skip list, the planner emits the child Directory
target with destination "./b", not "./a/b": line 72 of transfer.rs
hardcodes the base path to "." and never reads `override_base_path`, so a
child's destination is not nested under its parent folder's destination. -/
theorem child_targets_not_nested :
    recurse_download_targets [] (fun _ => "") "abcd"
        (FileNode.mk 1 "a" "FOLDER" [FileNode.mk 2 "b" "FOLDER" []]) none true =
      [{ from_ := none, to_ := "./a", target_type := TargetType.Directory,
          top_level := true, transfer_hash := "abcd" },
        { from_ := none, to_ := "./b", target_type := TargetType.Directory,
          top_level := false, transfer_hash := "abcd" }] ∧
    ¬ ("./b" = "./a" ++ "/" ++ "b") := by
  exact ⟨by decide, by decide⟩

/-- C5 (counter-evidence): a transfer whose root folder is in the skip list
plans an empty target list; the fan-in step still emits Downloaded for it
(vacuously all-Success), and Transfer::get_top_level finds no top-level
target, i.e. the source's `.unwrap()` panics inside watch_for_import instead
of tolerating the absence. -/
theorem get_top_level_none_on_empty_targets :
    recurse_download_targets ["sample"] (fun _ => "") "abcd"
        (FileNode.mk 1 "Sample" "FOLDER" [FileNode.mk 2 "movie" "VIDEO" []])
        none true = [] ∧
    get_top_level
        { name := "Sample", file_id := some 1, hash := some "abcd",
          transfer_id := 9, targets := some [] } = none ∧
    handle_queued_for_download
        { name := "Sample", file_id := some 1, hash := some "abcd",
          transfer_id := 9, targets := none } [] [] =
      [TransferMessage.Downloaded
        { name := "Sample", file_id := some 1, hash := some "abcd",
          transfer_id := 9, targets := some [] }] := by
  refine ⟨?_, rfl, rfl⟩
  simp +decide [recurse_download_targets, String.toLower, String.map,
    String.mapAux]

/-- C7 (counter-evidence): when putio::list_transfers fails, the Producer's
iteration emits nothing, leaves the seen set unchanged, and does not sleep
before the next fetch attempt (the source warns and `continue`s
immediately, skipping the back-off the spec requires). -/
theorem produce_step_no_backoff_on_failure (seen : List Nat) :
    produce_step seen none = ([], (seen, false)) := rfl

/-- C8 (counter-evidence): when planning fails for a QueuedForDownload
event, Worker::work propagates the error through `?` and returns it,
ending that worker's receive loop, instead of logging and continuing with
the next event. -/
theorem worker_dies_on_planning_failure (e : String)
    (outcomes : List DownloadTarget → List DownloadDoneStatus) (t : Transfer) :
    work_queued_step (Except.error e) outcomes t = Except.error e := rfl

/-- C9: once a successful status poll returns a non-Seeding status after any
number of Seeding polls, watch_seeding issues remove_transfer first and
delete_file second; a removal failure propagates as the watcher's error with
delete_file never issued; a deletion failure (delete_ok arbitrary) still
ends the watcher in Ok; and in every case the watcher emits no pipeline
event. -/
theorem watch_seeding_cleanup (remove_ok delete_ok : Bool) (n : Nat)
    (s : PutIOTransferStatus) (rest : List SeedPoll)
    (hs : s ≠ PutIOTransferStatus.Seeding) :
    watch_seeding remove_ok delete_ok
        (List.replicate n (SeedPoll.ok PutIOTransferStatus.Seeding) ++
          SeedPoll.ok s :: rest) =
      if remove_ok then
        ([RemoteCall.remove_transfer, RemoteCall.delete_file],
          (WatchResult.ok, []))
      else
        ([RemoteCall.remove_transfer], (WatchResult.errored, [])) := by
  induction n with
  | zero => simp [watch_seeding, hs]
  | succ n ih => simpa [List.replicate_succ, watch_seeding] using ih

/-- Witness for C9: two Seeding polls, then Completed, with delete_file
failing: both cleanup calls are issued in order and the watcher ends Ok with
no event. -/
theorem watch_seeding_cleanup_witness :
    watch_seeding true false
        (List.replicate 2 (SeedPoll.ok PutIOTransferStatus.Seeding) ++
          SeedPoll.ok PutIOTransferStatus.Completed :: []) =
      ([RemoteCall.remove_transfer, RemoteCall.delete_file],
        (WatchResult.ok, [])) := by
  simpa using watch_seeding_cleanup true false 2 PutIOTransferStatus.Completed
    [] (by decide)

theorem produce_scan_not_emitted (tid : Nat) :
    ∀ (ts : List PutIOTransfer) (seen : List Nat), tid ∈ seen →
      tid ∉ (produce_scan seen ts).1 := by
  intro ts
  induction ts with
  | nil => intro seen _; simp [produce_scan]
  | cons t ts ih =>
    intro seen hseen
    simp only [produce_scan]
    split
    · exact ih seen hseen
    · next hc =>
      have htid : t.id ∉ seen := fun hmem => hc (by simp [hmem])
      simp only [List.mem_cons, not_or]
      exact ⟨fun he => htid (he ▸ hseen),
        ih (seen ++ [t.id]) (List.mem_append_left _ hseen)⟩

theorem produce_scan_seen_eq :
    ∀ (ts : List PutIOTransfer) (seen : List Nat),
      (produce_scan seen ts).2 = seen ++ (produce_scan seen ts).1 := by
  intro ts
  induction ts with
  | nil => intro seen; simp [produce_scan]
  | cons t ts ih =>
    intro seen
    simp only [produce_scan]
    split
    · exact ih seen
    · rw [ih (seen ++ [t.id])]
      simp

theorem produce_scan_emits (tid : Nat) :
    ∀ (ts : List PutIOTransfer) (seen : List Nat) (tr : PutIOTransfer),
      tid ∉ seen → tr ∈ ts → tr.id = tid → tr.is_downloadable = true →
      tid ∈ (produce_scan seen ts).1 := by
  intro ts
  induction ts with
  | nil => intro seen tr _ htr; simp at htr
  | cons t ts ih =>
    intro seen tr hseen htr hid hdl
    simp only [produce_scan]
    split
    · next hc =>
      rcases List.mem_cons.mp htr with heq | hmem
      · subst heq
        simp only [Bool.or_eq_true, Bool.not_eq_true'] at hc
        rcases hc with hmem' | hnd
        · exact absurd (hid ▸ (by simpa using hmem')) hseen
        · rw [hdl] at hnd; cases hnd
      · exact ih seen tr hseen hmem hid hdl
    · simp only [List.mem_cons]
      rcases List.mem_cons.mp htr with heq | hmem
      · subst heq; exact Or.inl hid.symm
      · by_cases hx : tid = t.id
        · exact Or.inl hx
        · refine Or.inr (ih (seen ++ [t.id]) tr ?_ hmem hid hdl)
          simp only [List.mem_append, List.mem_singleton, not_or]
          exact ⟨hseen, hx⟩

theorem produce_step_seen_preserved (tid : Nat) (seen : List Nat)
    (snap : List PutIOTransfer) (hseen : tid ∈ seen)
    (hactive : tid ∈ snap.map PutIOTransfer.id) :
    tid ∈ (produce_step seen (some snap)).2.1 := by
  simp only [produce_step, List.mem_filter, produce_scan_seen_eq]
  refine ⟨List.mem_append_left _ hseen, ?_⟩
  simpa using hactive

/-- C6: seen-set dedupe in the Transfer Producer.  First conjunct: an id
already in the seen set is never emitted across any run of snapshots that
all still list it.  Second: pruning — an id absent from a snapshot is
dropped from the seen set by that iteration.  Third: an id not in the seen
set whose transfer is listed and downloadable is emitted by that iteration.
Fourth (disappear-then-reappear): after an iteration whose snapshot lacks
the id, an iteration whose snapshot lists it downloadable emits it again. -/
theorem seen_set_dedupe (tid : Nat) (seen : List Nat)
    (snaps : List (List PutIOTransfer)) (snap snap2 : List PutIOTransfer)
    (tr : PutIOTransfer) :
    (tid ∈ seen → (∀ s ∈ snaps, tid ∈ s.map PutIOTransfer.id) →
      tid ∉ (produce_run seen snaps).1) ∧
    (tid ∉ snap.map PutIOTransfer.id →
      tid ∉ (produce_step seen (some snap)).2.1) ∧
    (tid ∉ seen → tr ∈ snap2 → tr.id = tid → tr.is_downloadable = true →
      tid ∈ (produce_step seen (some snap2)).1) ∧
    (tid ∉ snap.map PutIOTransfer.id → tr ∈ snap2 → tr.id = tid →
      tr.is_downloadable = true →
      tid ∈ (produce_step (produce_step seen (some snap)).2.1 (some snap2)).1) := by
  have hprune : ∀ (sn : List PutIOTransfer) (sv : List Nat),
      tid ∉ sn.map PutIOTransfer.id →
      tid ∉ (produce_step sv (some sn)).2.1 := by
    intro sn sv habs hmem
    simp only [produce_step, List.mem_filter] at hmem
    exact habs (by simpa using hmem.2)
  have hemit : ∀ (sn : List PutIOTransfer) (sv : List Nat),
      tid ∉ sv → tr ∈ sn → tr.id = tid → tr.is_downloadable = true →
      tid ∈ (produce_step sv (some sn)).1 := by
    intro sn sv h1 h2 h3 h4
    simpa [produce_step] using produce_scan_emits tid sn sv tr h1 h2 h3 h4
  refine ⟨?_, hprune snap seen, hemit snap2 seen, ?_⟩
  · induction snaps generalizing seen with
    | nil => intro _ _; simp [produce_run]
    | cons snap0 snaps ih =>
      intro hseen hall
      simp only [produce_run, List.mem_append, not_or]
      constructor
      · simpa [produce_step] using produce_scan_not_emitted tid snap0 seen hseen
      · exact ih _ (produce_step_seen_preserved tid seen snap0 hseen
            (hall snap0 (List.mem_cons_self _ _)))
          (fun s hs => hall s (List.mem_cons_of_mem _ hs))
  · intro habs h2 h3 h4
    exact hemit snap2 _ (hprune snap seen habs) h2 h3 h4

/-- Witness for C6: with an empty seen set, a first snapshot not listing
id 7 and a second snapshot listing a downloadable transfer with id 7, the
second iteration emits 7. -/
theorem seen_set_dedupe_witness :
    7 ∈ (produce_step
        (produce_step [] (some [])).2.1
        (some [{ id := 7, file_id := some 3, name := "x", hash := none,
                 save_parent_id := none,
                 status := PutIOTransferStatus.Downloading }])).1 :=
  (seen_set_dedupe 7 [] [] []
      [{ id := 7, file_id := some 3, name := "x", hash := none,
         save_parent_id := none, status := PutIOTransferStatus.Downloading }]
      { id := 7, file_id := some 3, name := "x", hash := none,
        save_parent_id := none, status := PutIOTransferStatus.Downloading }).2.2.2
    (by decide) (List.mem_singleton_self _) rfl rfl

/-- C10: a failed putio::get_transfer poll, after any number of Seeding
polls, ends watch_seeding with an error immediately: no remote call is
issued and no event emitted, regardless of what later polls would have
returned (no retry at the next interval). -/
theorem watch_seeding_query_failure (remove_ok delete_ok : Bool) (n : Nat)
    (rest : List SeedPoll) :
    watch_seeding remove_ok delete_ok
        (List.replicate n (SeedPoll.ok PutIOTransferStatus.Seeding) ++
          SeedPoll.err :: rest) =
      ([], (WatchResult.errored, [])) := by
  induction n with
  | zero => simp [watch_seeding]
  | succ n ih => simpa [List.replicate_succ, watch_seeding] using ih

theorem recurse_unfold (skip : List String) (urlOf : Nat → String)
    (hash : String) (i : Nat) (n ty : String) (cs : List FileNode)
    (ob : Option String) (tl : Bool) :
    recurse_download_targets skip urlOf hash (FileNode.mk i n ty cs) ob tl =
      if ty = "FOLDER" then
        (if skip.contains n.toLower then []
         else
           { from_ := none, to_ := "." ++ "/" ++ n,
             target_type := TargetType.Directory, top_level := tl,
             transfer_hash := hash } ::
             recurse_children skip urlOf hash cs ("." ++ "/" ++ n))
      else if ty = "VIDEO" then
        [{ from_ := some (urlOf i), to_ := "." ++ "/" ++ n,
           target_type := TargetType.File, top_level := tl,
           transfer_hash := hash }]
      else [] := rfl

theorem unskipped_unfold (skip : List String) (i : Nat) (n ty : String)
    (cs : List FileNode) :
    unskippedNodes skip (FileNode.mk i n ty cs) =
      if ty = "FOLDER" && skip.contains n.toLower then []
      else FileNode.mk i n ty cs :: unskippedList skip cs := rfl

theorem mem_recurse_children (skip : List String) (urlOf : Nat → String)
    (hash : String) (t : DownloadTarget) :
    ∀ (nodes : List FileNode) (b : String),
      (t ∈ recurse_children skip urlOf hash nodes b ↔
        ∃ c ∈ nodes,
          t ∈ recurse_download_targets skip urlOf hash c (some b) false) := by
  intro nodes
  induction nodes with
  | nil => intro b; simp [recurse_children]
  | cons c cs ih =>
    intro b
    simp [recurse_children, List.mem_append, ih b]

theorem recurse_false_no_top_level (skip : List String) (urlOf : Nat → String)
    (hash : String) :
    ∀ (node : FileNode) (ob : Option String) (t : DownloadTarget),
      t ∈ recurse_download_targets skip urlOf hash node ob false →
      t.top_level = false := by
  intro node
  induction node using FileNode.strongInd with
  | step i n ty cs ih =>
    intro ob t ht
    rw [recurse_unfold] at ht
    by_cases hf : ty = "FOLDER"
    · rw [if_pos hf] at ht
      by_cases hskip : skip.contains n.toLower = true
      · rw [if_pos hskip] at ht; simp at ht
      · rw [if_neg hskip] at ht
        rcases List.mem_cons.mp ht with rfl | hmem
        · rfl
        · rcases (mem_recurse_children skip urlOf hash t cs _).mp hmem with
            ⟨c, hc, htc⟩
          exact ih c hc (some _) t htc
    · rw [if_neg hf] at ht
      by_cases hv : ty = "VIDEO"
      · rw [if_pos hv] at ht
        rw [List.mem_singleton] at ht
        subst ht; rfl
      · rw [if_neg hv] at ht; simp at ht

theorem wellFormedList_mem :
    ∀ (cs : List FileNode), wellFormedList cs = true →
      ∀ c ∈ cs, wellFormed c = true := by
  intro cs
  induction cs with
  | nil => intro _ c hc; simp at hc
  | cons c0 cs ih =>
    intro h c hc
    rw [wellFormedList, Bool.and_eq_true] at h
    rcases List.mem_cons.mp hc with rfl | hmem
    · exact h.1
    · exact ih h.2 c hmem

theorem countP_recurse_children (skip : List String) (urlOf : Nat → String)
    (hash : String) (p : DownloadTarget → Bool) :
    ∀ (nodes : List FileNode) (b : String),
      (recurse_children skip urlOf hash nodes b).countP p =
        (nodes.map (fun c =>
          (recurse_download_targets skip urlOf hash c (some b) false).countP
            p)).sum := by
  intro nodes
  induction nodes with
  | nil => intro b; simp [recurse_children]
  | cons c cs ih =>
    intro b
    simp [recurse_children, List.countP_append, ih b]

theorem length_recurse_children (skip : List String) (urlOf : Nat → String)
    (hash : String) :
    ∀ (nodes : List FileNode) (b : String),
      (recurse_children skip urlOf hash nodes b).length =
        (nodes.map (fun c =>
          (recurse_download_targets skip urlOf hash c (some b)
            false).length)).sum := by
  intro nodes
  induction nodes with
  | nil => intro b; simp [recurse_children]
  | cons c cs ih =>
    intro b
    simp [recurse_children, List.length_append, ih b]

theorem countP_unskippedList (skip : List String) (p : FileNode → Bool) :
    ∀ (nodes : List FileNode),
      (unskippedList skip nodes).countP p =
        (nodes.map (fun c => (unskippedNodes skip c).countP p)).sum := by
  intro nodes
  induction nodes with
  | nil => simp [unskippedList]
  | cons c cs ih =>
    simp [unskippedList, List.countP_append, ih]

theorem map_sum_congr {α : Type} (l : List α) (f g : α → Nat)
    (h : ∀ a ∈ l, f a = g a) : (l.map f).sum = (l.map g).sum := by
  induction l with
  | nil => rfl
  | cons a l ih =>
    simp only [List.map_cons, List.sum_cons, h a (List.mem_cons_self a l)]
    rw [ih (fun b hb => h b (List.mem_cons_of_mem _ hb))]

theorem map_sum_add {α : Type} (l : List α) (f g : α → Nat) :
    (l.map (fun a => f a + g a)).sum = (l.map f).sum + (l.map g).sum := by
  induction l with
  | nil => rfl
  | cons a l ih =>
    simp only [List.map_cons, List.sum_cons, ih]
    omega

/-- C4: a non-empty target list planned for a transfer's root (the
`override_base_path = none, top_level = true` call made by
Transfer::get_download_targets) has exactly one target with
`top_level = true`; that target is the head and is the root node's own
target; and every target produced by a recursive call (which always passes
`top_level = false`) has `top_level = false`. -/
theorem top_level_unique (skip : List String) (urlOf : Nat → String)
    (hash : String) (node : FileNode)
    (hne : recurse_download_targets skip urlOf hash node none true ≠ []) :
    (recurse_download_targets skip urlOf hash node none true).countP
        (fun d => d.top_level) = 1 ∧
    (∃ d, (recurse_download_targets skip urlOf hash node none true).head? =
        some d ∧ d.top_level = true ∧ d.to_ = "." ++ "/" ++ node.name) ∧
    (∀ (ob : Option String) (t : DownloadTarget),
      t ∈ recurse_download_targets skip urlOf hash node ob false →
      t.top_level = false) := by
  obtain ⟨i, n, ty, cs⟩ := node
  rw [recurse_unfold] at hne
  by_cases hf : ty = "FOLDER"
  · rw [if_pos hf] at hne
    by_cases hskip : skip.contains n.toLower = true
    · rw [if_pos hskip] at hne; exact absurd rfl hne
    · rw [if_neg hskip] at hne
      refine ⟨?_, ?_, recurse_false_no_top_level skip urlOf hash _⟩
      · rw [recurse_unfold, if_pos hf, if_neg hskip, List.countP_cons]
        have hz : (recurse_children skip urlOf hash cs
            ("." ++ "/" ++ n)).countP (fun d => d.top_level) = 0 := by
          rw [List.countP_eq_zero]
          intro t htmem
          rcases (mem_recurse_children skip urlOf hash t cs _).mp htmem with
            ⟨c, hc, htc⟩
          simp [recurse_false_no_top_level skip urlOf hash c (some _) t htc]
        rw [hz]
        simp
      · rw [recurse_unfold, if_pos hf, if_neg hskip]
        exact ⟨_, rfl, rfl, rfl⟩
  · rw [if_neg hf] at hne
    by_cases hv : ty = "VIDEO"
    · refine ⟨?_, ?_, recurse_false_no_top_level skip urlOf hash _⟩
      · rw [recurse_unfold, if_neg hf, if_pos hv]
        simp [List.countP_cons]
      · rw [recurse_unfold, if_neg hf, if_pos hv]
        exact ⟨_, rfl, rfl, rfl⟩
    · rw [if_neg hv] at hne; exact absurd rfl hne

/-- Witness for C4: a concrete root folder with a video child plans a
non-empty list whose top-level count is one. -/
theorem top_level_unique_witness :
    (recurse_download_targets [] (fun _ => "u") "abcd"
        (FileNode.mk 1 "a" "FOLDER" [FileNode.mk 2 "b" "VIDEO" []])
        none true).countP (fun d => d.top_level) = 1 :=
  (top_level_unique [] (fun _ => "u") "abcd"
    (FileNode.mk 1 "a" "FOLDER" [FileNode.mk 2 "b" "VIDEO" []])
    (by decide)).1

/-- C3: over a well-formed remote tree (children only under FOLDER nodes),
the planner emits exactly one Directory target per FOLDER node that
survives the subtree-wide skip filter, exactly one File target per VIDEO
node that survives it, and nothing else: the total length is the sum of
those two counts, so nodes of other types and everything inside a skipped
folder's subtree contribute zero targets. -/
theorem planner_target_counts (skip : List String) (urlOf : Nat → String)
    (hash : String) :
    ∀ (node : FileNode) (ob : Option String) (tl : Bool),
      wellFormed node = true →
      ((recurse_download_targets skip urlOf hash node ob tl).countP
          (fun d => d.target_type == TargetType.Directory) =
        (unskippedNodes skip node).countP
          (fun c => c.file_type == "FOLDER") ∧
       (recurse_download_targets skip urlOf hash node ob tl).countP
          (fun d => d.target_type == TargetType.File) =
        (unskippedNodes skip node).countP
          (fun c => c.file_type == "VIDEO") ∧
       (recurse_download_targets skip urlOf hash node ob tl).length =
        (unskippedNodes skip node).countP
            (fun c => c.file_type == "FOLDER") +
          (unskippedNodes skip node).countP
            (fun c => c.file_type == "VIDEO")) := by
  intro node
  induction node using FileNode.strongInd with
  | step i n ty cs ih =>
    intro ob tl hwf
    rw [wellFormed, Bool.and_eq_true] at hwf
    obtain ⟨hty, hwfl⟩ := hwf
    have ihc : ∀ c ∈ cs, ∀ (ob2 : Option String) (tl2 : Bool), _ :=
      fun c hc ob2 tl2 => ih c hc ob2 tl2 (wellFormedList_mem cs hwfl c hc)
    by_cases hf : ty = "FOLDER"
    · subst hf
      by_cases hskip : skip.contains n.toLower = true
      · rw [recurse_unfold, if_pos rfl, if_pos hskip, unskipped_unfold,
          if_pos (by simp only [decide_True, Bool.true_and]; exact hskip)]
        simp
      · rw [recurse_unfold, if_pos rfl, if_neg hskip, unskipped_unfold,
          if_neg (by simp only [decide_True, Bool.true_and]; exact hskip)]
        refine ⟨?_, ?_, ?_⟩
        · rw [List.countP_cons, List.countP_cons, countP_recurse_children,
            countP_unskippedList,
            map_sum_congr _ _ _ (fun c hc =>
              (ihc c hc (some ("." ++ "/" ++ n)) false).1)]
          simp [FileNode.file_type]
        · rw [List.countP_cons, List.countP_cons, countP_recurse_children,
            countP_unskippedList,
            map_sum_congr _ _ _ (fun c hc =>
              (ihc c hc (some ("." ++ "/" ++ n)) false).2.1)]
          simp +decide [FileNode.file_type]
        · rw [List.length_cons, length_recurse_children, List.countP_cons,
            List.countP_cons, countP_unskippedList, countP_unskippedList,
            map_sum_congr _ _ _ (fun c hc =>
              (ihc c hc (some ("." ++ "/" ++ n)) false).2.2),
            map_sum_add]
          simp +decide [FileNode.file_type]
          omega
    · have hcs : cs = [] := by
        have hty2 : ty = "FOLDER" ∨ cs = [] := by simpa using hty
        rcases hty2 with h1 | h2
        · exact absurd h1 hf
        · exact h2
      subst hcs
      rw [unskipped_unfold, if_neg (by simp [hf])]
      by_cases hv : ty = "VIDEO"
      · subst hv
        rw [recurse_unfold, if_neg hf, if_pos rfl]
        refine ⟨?_, ?_, ?_⟩ <;>
          simp +decide [List.countP_cons, FileNode.file_type, unskippedList]
      · rw [recurse_unfold, if_neg hf, if_neg hv]
        refine ⟨?_, ?_, ?_⟩ <;>
          simp [List.countP_cons, FileNode.file_type, unskippedList, hf, hv]

/-- Witness for C3: a root show folder with one video child and one
"sample" subfolder (skip-listed, holding another video): the target count
equalities hold at this concrete tree. -/
theorem planner_target_counts_witness :
    (recurse_download_targets ["sample"] (fun _ => "u") "abcd"
        (FileNode.mk 1 "Show" "FOLDER"
          [FileNode.mk 2 "e1" "VIDEO" [],
            FileNode.mk 3 "sample" "FOLDER" [FileNode.mk 4 "s1" "VIDEO" []]])
        none true).countP
      (fun d => d.target_type == TargetType.Directory) =
    (unskippedNodes ["sample"]
        (FileNode.mk 1 "Show" "FOLDER"
          [FileNode.mk 2 "e1" "VIDEO" [],
            FileNode.mk 3 "sample" "FOLDER"
              [FileNode.mk 4 "s1" "VIDEO" []]])).countP
      (fun c => c.file_type == "FOLDER") :=
  (planner_target_counts ["sample"] (fun _ => "u") "abcd"
    (FileNode.mk 1 "Show" "FOLDER"
      [FileNode.mk 2 "e1" "VIDEO" [],
        FileNode.mk 3 "sample" "FOLDER" [FileNode.mk 4 "s1" "VIDEO" []]])
    none true (by decide)).1

end Putioarr
